import Mathlib

/-! Shallow embedding of the MPCBench scheduling oracle
(src/oracle/oracle_core.py, src/oracle/slot_resolver.py,
src/oracle/constraints.py, src/oracle/level1_oracle.py,
src/oracle/level3_oracle.py).

Modeling conventions:
* A point in time is a whole number of minutes on one absolute timeline
  (`Int`).  An ISO-8601 datetime string appearing in world or instance
  data is modeled by the instant that the oracle assigns to it when
  parsing it with the world timezone, so the `parse_datetime` /
  `to_iso_with_tz` round-trips inside the pipeline are the identity.
* An IANA timezone is modeled as a fixed UTC offset in minutes (`Tz`);
  Python aware-datetime arithmetic, `.minute` and `.weekday()` are
  expressed through the wall-clock value `wallOf`.  The epoch is chosen
  so that wall-clock day 0 is a Monday, matching `datetime.weekday`.
* An "HH:MM" string is modeled as minutes after midnight.
* Python dicts are modeled as functions into `Option`; JSON records are
  modeled as structures carrying the fields the oracle reads.
* Python's stable `sorted` is modeled by the stable `List.insertionSort`.
-/

namespace MPCBench

/-- A timezone, modeled as a fixed UTC offset in minutes. -/
structure Tz where
  offset : Int
  deriving DecidableEq

/-- The wall-clock reading, in minutes, of instant `t` in timezone `tz`. -/
def wallOf (tz : Tz) (t : Int) : Int := t + tz.offset

/-- `dt.minute` of an aware datetime: minute of the hour on the wall clock. -/
def minute_of_hour (tz : Tz) (t : Int) : Int := wallOf tz t % 60

/-- `dt.weekday()`: Monday = 0, ..., Sunday = 6 (epoch day 0 is a Monday). -/
def weekdayOf (tz : Tz) (t : Int) : Int := wallOf tz t / 1440 % 7

/-! ### parse_datetime (oracle_core.py lines 11-44)

The branching of `parse_datetime` inspects the raw text: whether it has a
`T` separator, whether it contains a `+` character, and whether it ends
with `Z`.  A datetime string is therefore modeled by `DtText`: its naive
wall-clock reading in minutes plus the shape of its trailing offset mark
(`aware` datetimes store a wall clock and a UTC offset; the denoted
instant is wall minus offset). -/

/-- The offset mark a datetime string carries: `+HH:MM`, `-HH:MM`, a `Z`
suffix, or none at all.  `'+' in dt_str` holds exactly for `plusMark`, and
`dt_str.endswith('Z')` exactly for `zuluMark`. -/
inductive OffsetMark where
  | plusMark (minutes : Int)
  | minusMark (minutes : Int)
  | zuluMark
  | noMark
  deriving DecidableEq

/-- A datetime string: whether it contains the `T` separator, its naive
wall-clock reading in minutes, and its offset mark. -/
structure DtText where
  hasTSep : Bool
  wall : Int
  mark : OffsetMark
  deriving DecidableEq

/-- A timezone-aware datetime value: stored wall clock plus the UTC offset
of its attached tzinfo, both in minutes (how Python aware datetimes
behave under `replace(tzinfo=...)`). -/
structure AwareDt where
  wall : Int
  offset : Int
  deriving DecidableEq

/-- The absolute instant an aware datetime denotes. -/
def instantOf (d : AwareDt) : Int := d.wall - d.offset

/-- The UTC offset written in the text, when one is written (`Z` is
rewritten to `+00:00` by the code before parsing). -/
def markOffset : OffsetMark → Option Int
  | .plusMark m => some m
  | .minusMark m => some (-m)
  | .zuluMark => some 0
  | .noMark => none

/-- `'+' in dt_str` for our text model. -/
def hasPlusChar : OffsetMark → Bool
  | .plusMark _ => true
  | _ => false

/-- `dt_str.endswith('Z')` for our text model. -/
def endsWithZ : OffsetMark → Bool
  | .zuluMark => true
  | _ => false

/-- The instant the text itself denotes (its wall clock minus the offset
it carries, or minus the fallback offset when it carries none). -/
def textInstant (text : DtText) (fallback : Int) : Int :=
  text.wall - (markOffset text.mark).getD fallback

/-- `parse_datetime(dt_str, tz_str)` from oracle_core.py.  `tz = none`
models `tz_str = None` (UTC fallback). -/
def parse_datetime (text : DtText) (tz : Option Tz) : Except String AwareDt :=
  if text.hasTSep then
    if hasPlusChar text.mark || endsWithZ text.mark then
      -- "Has timezone info, parse as-is but ensure tz-aware"
      match markOffset text.mark with
      | some off => Except.ok ⟨text.wall, off⟩
      | none =>
        -- "Should not happen, but handle it": attach tz_str or UTC
        Except.ok ⟨text.wall, (tz.map Tz.offset).getD 0⟩
    else
      -- "No timezone, attach provided timezone or UTC":
      -- fromisoformat, then replace(tzinfo=...) keeps the wall clock
      -- and overwrites whatever offset the text carried
      Except.ok ⟨text.wall, (tz.map Tz.offset).getD 0⟩
  else
    Except.error "Invalid datetime format"

/-! ### Interval primitives (oracle_core.py lines 71-121) -/

/-- `intervals_overlap`: half-open overlap test; touching endpoints do not
overlap. -/
def intervals_overlap (start1 end1 start2 end2 : Int) : Bool :=
  decide (start1 < end2) && decide (start2 < end1)

/-- `build_daily_interval(anchor_dt, start_hhmm, end_hhmm, tz_str)`:
the daily window on the anchor's calendar day in `tz`, with the
cross-midnight end advanced by one day.  Returns a pair of instants. -/
def build_daily_interval (anchor : Int) (startHHMM endHHMM : Int) (tz : Tz) :
    Int × Int :=
  let w := wallOf tz anchor
  let base := w - w % 1440
  let startDt := base + startHHMM - tz.offset
  let endDt := base + endHHMM - tz.offset
  if endDt ≤ startDt then (startDt, endDt + 1440) else (startDt, endDt)

/-- `dt_in_days_of_week(dt, days_of_week)`. -/
def dt_in_days_of_week (tz : Tz) (t : Int) (days : List Int) : Bool :=
  days.contains (weekdayOf tz t)

/-! ### compute_common_free_windows (oracle_core.py lines 124-171) -/

/-- The sweep loop of `compute_common_free_windows`: walk the (sorted)
busy intervals, keep the gap before each clamped busy interval, advance
`current_start`, and keep the trailing gap.  The early `break` on
`busy_start ≥ window_end` falls through to the trailing-gap check. -/
def freeSweep (window_start window_end : Int) :
    List (Int × Int) → Int → List (Int × Int)
  | [], current_start =>
      if current_start < window_end then [(current_start, window_end)] else []
  | (busy_start, busy_end) :: rest, current_start =>
      if busy_end ≤ window_start then
        freeSweep window_start window_end rest current_start
      else if busy_start ≥ window_end then
        if current_start < window_end then [(current_start, window_end)] else []
      else
        let clamped_start := max busy_start window_start
        let clamped_end := min busy_end window_end
        (if current_start < clamped_start then [(current_start, clamped_start)]
         else []) ++
          freeSweep window_start window_end rest (max current_start clamped_end)

/-- `sorted(busy_intervals, key=lambda x: x[0])`: Python's stable sort by
interval start. -/
def sortBusyByStart (l : List (Int × Int)) : List (Int × Int) :=
  List.insertionSort (fun a b => a.1 ≤ b.1) l

/-- `compute_common_free_windows(busy_intervals, window_start, window_end)`. -/
def compute_common_free_windows (busy_intervals : List (Int × Int))
    (window_start window_end : Int) : List (Int × Int) :=
  if busy_intervals.isEmpty then [(window_start, window_end)]
  else freeSweep window_start window_end (sortBusyByStart busy_intervals)
    window_start

/-! ### Candidate enumeration (oracle_core.py lines 174-233) -/

/-- `round_to_grid(dt, grid_minutes)`: round the wall clock down to the
grid by replacing the minute of the hour with `(minute // grid) * grid`. -/
def round_to_grid (tz : Tz) (t : Int) (grid_minutes : Int) : Int :=
  t - minute_of_hour tz t % grid_minutes

/-- The `while candidate_start < free_end` loop of `enumerate_candidates`:
emit `(start, start + duration)` whenever the candidate fits the free
interval and the search window, stepping by `grid_minutes`.  The loop is
written with a step counter so it is structurally recursive; the caller
passes `(free_end - candidate_start).toNat` steps, which is enough for a
positive grid because each iteration advances the start by at least one
minute (the Python loop does not terminate for a non-positive grid, so
that case is outside the modeled domain). -/
def enumFrom (free_end time_window_start time_window_end : Int)
    (duration_min grid_minutes : Int) :
    Nat → Int → List (Int × Int)
  | 0, _ => []
  | fuel + 1, candidate_start =>
      if candidate_start < free_end then
        (if candidate_start + duration_min ≤ free_end ∧
            time_window_start ≤ candidate_start ∧
            candidate_start + duration_min ≤ time_window_end then
          [(candidate_start, candidate_start + duration_min)]
         else []) ++
          enumFrom free_end time_window_start time_window_end duration_min
            grid_minutes fuel (candidate_start + grid_minutes)
      else []

/-- Per-free-interval start of the loop: `max(free_start,
window_start_rounded)`, rounded up to the next grid point when its wall
minute is off-grid. -/
def gridAlignedStart (tz : Tz) (grid_minutes : Int)
    (window_start_rounded : Int) (free_start : Int) : Int :=
  if minute_of_hour tz (max free_start window_start_rounded) % grid_minutes
      ≠ 0 then
    max free_start window_start_rounded +
      (grid_minutes -
        minute_of_hour tz (max free_start window_start_rounded) % grid_minutes)
  else max free_start window_start_rounded

/-- `enumerate_candidates(free_intervals, duration_min, time_window_start,
time_window_end, tz_str, grid_minutes)`.  Candidates are ISO strings in
the source; here they are the pairs of instants those strings denote. -/
def enumerate_candidates (tz : Tz) (free_intervals : List (Int × Int))
    (duration_min : Int) (time_window_start time_window_end : Int)
    (grid_minutes : Int) : List (Int × Int) :=
  free_intervals.flatMap fun fi =>
    enumFrom fi.2 time_window_start time_window_end duration_min grid_minutes
      (fi.2 -
        gridAlignedStart tz grid_minutes
          (round_to_grid tz time_window_start grid_minutes) fi.1).toNat
      (gridAlignedStart tz grid_minutes
        (round_to_grid tz time_window_start grid_minutes) fi.1)

/-! ### Deterministic ranking (oracle_core.py lines 236-258) -/

/-- The `sort_candidates` key order: `(start, end, start-as-text)`
ascending.  The text component is determined by `start`, so the key
relation is the lexicographic order on `(start, end)`. -/
def candidate_le (a b : Int × Int) : Prop :=
  a.1 < b.1 ∨ (a.1 = b.1 ∧ a.2 ≤ b.2)

instance : DecidableRel candidate_le := fun a b => by
  unfold candidate_le; infer_instance

/-- `sort_candidates(candidates)`: Python's stable sort by the key above. -/
def sort_candidates (candidates : List (Int × Int)) : List (Int × Int) :=
  List.insertionSort candidate_le candidates

/-- `select_top_n(candidates, n)`. -/
def select_top_n (candidates : List (Int × Int)) (n : Nat) : List (Int × Int) :=
  (sort_candidates candidates).take n

/-! ### World and instance documents (section 6 of the spec)

Datetime strings stored in the documents are modeled by the instants the
oracle parses them to (with the world timezone); dicts keyed by strings
are functions into `Option`. -/

/-- One organizational policy rule (`rule["type"]` dispatch closed over
the four kinds the engine knows; an unknown type is fatal in the source
and out of the modeled domain). -/
inductive Rule where
  | work_hours (startHHMM endHHMM : Int) (days_of_week : Option (List Int))
  | lunch_block (startHHMM endHHMM : Int) (days_of_week : Option (List Int))
  | buffer_min (minutes : Int)
  | ban_dow_time (day_of_week : Int) (startHHMM endHHMM : Int)

/-- A row of `people_table` (tier 3), already normalized to the fields the
oracle reads. -/
structure PersonRow where
  person_name : String
  person_id : String

/-- A row of `rooms_table` (tier 3) with the fields the oracle reads. -/
structure RoomRow where
  room_id : String
  capacity : Int

/-- The world document (`world["sources"]` plus `world["timezone"]`).
Tier-3-only sections are `Option`s; a missing section raises in the
source. -/
structure World where
  timezone : Tz
  calendar_json : String → Option (List (Int × Int))
  policy_json : String → Option (List Rule)
  policy_tags : Option (String → Option (List Rule))
  people_table : Option (List PersonRow)
  rooms_table : Option (List RoomRow)
  room_availability_json : Option (String → Option (List (Int × Int)))

/-- `instance["slots"]`.  `policy_id` is `none` when the key is absent. -/
structure Slots where
  participants : List String
  time_window : Int × Int
  duration_min : Int
  num_options : Nat
  policy_id : Option String

/-- A tier-3 communication thread's `thread_tags`. -/
structure ThreadTags where
  deadline : Option Int
  ban_windows : Option (List (Int × Int))
  required_windows : Option (List (Int × Int))
  sort_spec : Option (List String)

/-- A tier-3 communication thread. -/
structure Thread where
  thread_id : String
  thread_tags : Option ThreadTags

/-- A task instance.  `comm_threads = none` models an instance whose
`sources` carry no `comm_threads` section. -/
structure TaskInstance where
  instance_id : String
  slots : Slots
  comm_threads : Option (List Thread)

/-! ### Slot resolver (slot_resolver.py) -/

/-- The normalized requirement record `resolve_slots` returns. -/
structure ResolvedSlots where
  participants : List String
  time_window : Int × Int
  duration_min : Int
  num_options : Nat
  policy_id : String

/-- `resolve_slots(level, world, instance)`.  Tier 1 indexes
`slots["policy_id"]` directly (KeyError when absent); tiers 2 and 3 fail
on an absent or empty policy id; tier 3 forces `num_options = 3`. -/
def resolve_slots (level : Nat) (_world : World) (inst : TaskInstance) :
    Except String ResolvedSlots :=
  if level = 1 then
    match inst.slots.policy_id with
    | some p =>
        Except.ok ⟨inst.slots.participants, inst.slots.time_window,
          inst.slots.duration_min, inst.slots.num_options, p⟩
    | none => Except.error "KeyError: policy_id"
  else if level = 2 then
    match inst.slots.policy_id with
    | some p =>
        if p = "" then
          Except.error "Level 2 requires policy_id in slots"
        else
          Except.ok ⟨inst.slots.participants, inst.slots.time_window,
            inst.slots.duration_min, inst.slots.num_options, p⟩
    | none => Except.error "Level 2 requires policy_id in slots"
  else if level = 3 then
    match inst.slots.policy_id with
    | some p =>
        if p = "" then
          Except.error "Level 3 requires policy_id in slots"
        else
          Except.ok ⟨inst.slots.participants, inst.slots.time_window,
            inst.slots.duration_min, 3, p⟩
    | none => Except.error "Level 3 requires policy_id in slots"
  else Except.error "Unknown level"

/-! ### Constraint filters (constraints.py) -/

/-- The keep-predicate of `filter_work_hours`: drop candidates off the
allowed weekdays, keep only those fully contained in the daily work
window built on their own start day. -/
def work_hours_keep (tz : Tz) (startHHMM endHHMM : Int)
    (days_of_week : Option (List Int)) (c : Int × Int) : Bool :=
  (match days_of_week with
   | some ds => dt_in_days_of_week tz c.1 ds
   | none => true) &&
  (let w := build_daily_interval c.1 startHHMM endHHMM tz
   decide (w.1 ≤ c.1) && decide (c.2 ≤ w.2))

/-- `filter_work_hours(candidates, rule, tz_str)`. -/
def filter_work_hours (candidates : List (Int × Int)) (startHHMM endHHMM : Int)
    (days_of_week : Option (List Int)) (tz : Tz) : List (Int × Int) :=
  candidates.filter (work_hours_keep tz startHHMM endHHMM days_of_week)

/-- The keep-predicate of `filter_lunch_block`: candidates off the
restricted weekdays are kept unconditionally; otherwise keep exactly the
candidates that do not overlap the daily lunch window. -/
def lunch_block_keep (tz : Tz) (startHHMM endHHMM : Int)
    (days_of_week : Option (List Int)) (c : Int × Int) : Bool :=
  match days_of_week with
  | some ds =>
      if !dt_in_days_of_week tz c.1 ds then true
      else
        let w := build_daily_interval c.1 startHHMM endHHMM tz
        !intervals_overlap c.1 c.2 w.1 w.2
  | none =>
      let w := build_daily_interval c.1 startHHMM endHHMM tz
      !intervals_overlap c.1 c.2 w.1 w.2

/-- `filter_lunch_block(candidates, rule, tz_str)`. -/
def filter_lunch_block (candidates : List (Int × Int)) (startHHMM endHHMM : Int)
    (days_of_week : Option (List Int)) (tz : Tz) : List (Int × Int) :=
  candidates.filter (lunch_block_keep tz startHHMM endHHMM days_of_week)

/-- The expanded busy set of `filter_buffer_min`: every busy interval of
every listed participant, widened by the buffer on both sides;
participants absent from `calendar_json` contribute nothing. -/
def expanded_busy (world : World) (buffer_minutes : Int)
    (participants : List String) : List (Int × Int) :=
  participants.flatMap fun person_id =>
    match world.calendar_json person_id with
    | none => []
    | some events =>
        events.map fun ev => (ev.1 - buffer_minutes, ev.2 + buffer_minutes)

/-- `filter_buffer_min(candidates, rule, world, slots)`. -/
def filter_buffer_min (candidates : List (Int × Int)) (buffer_minutes : Int)
    (world : World) (participants : List String) : List (Int × Int) :=
  let busy := expanded_busy world buffer_minutes participants
  candidates.filter fun c =>
    !(busy.any fun b => intervals_overlap c.1 c.2 b.1 b.2)

/-- The keep-predicate of `filter_ban_dow_time`: drop a candidate exactly
when it starts on the banned weekday and overlaps the daily ban window. -/
def ban_dow_keep (tz : Tz) (day_of_week : Int) (startHHMM endHHMM : Int)
    (c : Int × Int) : Bool :=
  if weekdayOf tz c.1 = day_of_week then
    let w := build_daily_interval c.1 startHHMM endHHMM tz
    !intervals_overlap c.1 c.2 w.1 w.2
  else true

/-- `filter_ban_dow_time(candidates, rule, tz_str)`. -/
def filter_ban_dow_time (candidates : List (Int × Int)) (day_of_week : Int)
    (startHHMM endHHMM : Int) (tz : Tz) : List (Int × Int) :=
  candidates.filter (ban_dow_keep tz day_of_week startHHMM endHHMM)

/-- `filter_deadline(candidates, deadline_str, tz_str)`: keep candidates
whose start is at most the deadline. -/
def filter_deadline (candidates : List (Int × Int)) (deadline : Int) :
    List (Int × Int) :=
  candidates.filter fun c => decide (c.1 ≤ deadline)

/-- `filter_ban_windows(candidates, ban_windows, tz_str)`: drop candidates
overlapping any ban window. -/
def filter_ban_windows (candidates : List (Int × Int))
    (ban_windows : List (Int × Int)) : List (Int × Int) :=
  candidates.filter fun c =>
    !(ban_windows.any fun b => intervals_overlap c.1 c.2 b.1 b.2)

/-- The keep-predicate of `filter_required_windows`: the candidate must be
fully contained in at least one required window. -/
def required_windows_keep (required : List (Int × Int)) (c : Int × Int) :
    Bool :=
  required.any fun w => decide (w.1 ≤ c.1) && decide (c.2 ≤ w.2)

/-- `filter_required_windows(candidates, required_windows, tz_str)`. -/
def filter_required_windows (candidates : List (Int × Int))
    (required : List (Int × Int)) : List (Int × Int) :=
  candidates.filter (required_windows_keep required)

/-- Dispatch of one policy rule, as in the `rule["type"]` chain shared by
`apply_level1_constraints` / `apply_level2_constraints` /
`apply_level3_constraints`. -/
def apply_rule (world : World) (participants : List String) (r : Rule)
    (candidates : List (Int × Int)) : List (Int × Int) :=
  match r with
  | .work_hours s e d => filter_work_hours candidates s e d world.timezone
  | .lunch_block s e d => filter_lunch_block candidates s e d world.timezone
  | .buffer_min m => filter_buffer_min candidates m world participants
  | .ban_dow_time dow s e =>
      filter_ban_dow_time candidates dow s e world.timezone

/-- The left-to-right fold of the policy rules over the candidate list. -/
def apply_policy_rules (world : World) (participants : List String)
    (rules : List Rule) (candidates : List (Int × Int)) : List (Int × Int) :=
  rules.foldl (fun cs r => apply_rule world participants r cs) candidates

/-- `apply_level1_constraints(world, slots, candidates)`: the policy is
looked up in `policy_json` (KeyError when absent). -/
def apply_level1_constraints (world : World) (slots : ResolvedSlots)
    (candidates : List (Int × Int)) : Except String (List (Int × Int)) :=
  match world.policy_json slots.policy_id with
  | none => Except.error "KeyError: policy_json"
  | some rules =>
      Except.ok (apply_policy_rules world slots.participants rules candidates)

/-- One thread's evidence constraints, in the order the source applies
them: deadline, then ban windows, then required windows. -/
def apply_thread_tags (tags : ThreadTags) (candidates : List (Int × Int)) :
    List (Int × Int) :=
  let cs := match tags.deadline with
    | some d => filter_deadline candidates d
    | none => candidates
  let cs := match tags.ban_windows with
    | some bw => filter_ban_windows cs bw
    | none => cs
  match tags.required_windows with
  | some rw => filter_required_windows cs rw
  | none => cs

/-- `apply_level3_constraints(world, slots, candidates, instance)`:
policy rules from `policy_tags`, then every thread's `thread_tags`
bundle in thread order; `comm_threads` is optional. -/
def apply_level3_constraints (world : World) (slots : ResolvedSlots)
    (candidates : List (Int × Int)) (inst : TaskInstance) :
    Except String (List (Int × Int)) :=
  match world.policy_tags with
  | none => Except.error "Level 3 requires world.sources.policy_tags"
  | some ptags =>
      match ptags slots.policy_id with
      | none => Except.error "Level 3 requires policy_id in policy_tags"
      | some rules =>
          let filtered :=
            apply_policy_rules world slots.participants rules candidates
          match inst.comm_threads with
          | none => Except.ok filtered
          | some threads =>
              Except.ok (threads.foldl
                (fun cs th =>
                  match th.thread_tags with
                  | some tags => apply_thread_tags tags cs
                  | none => cs)
                filtered)

/-! ### Level-1 orchestrator (level1_oracle.py) -/

/-- `gather_busy_intervals(world, participants, tz_str)`: all busy
intervals of the listed participants; ids absent from `calendar_json`
are skipped. -/
def gather_busy_intervals (world : World) (participants : List String) :
    List (Int × Int) :=
  participants.flatMap fun person_id =>
    match world.calendar_json person_id with
    | none => []
    | some events => events.map fun ev => (ev.1, ev.2)

/-- The provenance manifest entries, `(source, key)` pairs. -/
abbrev ExplanationKeys := List (String × String)

/-- The per-instance diagnostic counts `process_instance` returns at
level 1. -/
structure DebugInfo1 where
  num_generated : Nat
  num_after_constraints : Nat
  num_options : Nat
  discarded : Bool

/-- A level-1 oracle result. -/
structure OracleResult1 where
  instance_id : String
  feasible_candidates : List (Int × Int)
  explanation_keys : ExplanationKeys
  num_generated : Nat
  num_after_constraints : Nat
  num_options : Nat

/-- The candidate generation shared by the level-1 pipeline: gather the
participants' busy intervals, compute the free windows of the request
window, and enumerate candidates on the 15-minute grid. -/
def level1_base (world : World) (slots : ResolvedSlots) : List (Int × Int) :=
  enumerate_candidates world.timezone
    (compute_common_free_windows
      (gather_busy_intervals world slots.participants)
      slots.time_window.1 slots.time_window.2)
    slots.duration_min slots.time_window.1 slots.time_window.2 15

/-- The level-1 provenance manifest. -/
def explanationKeys1 (slots : ResolvedSlots) : ExplanationKeys :=
  (slots.participants.map fun person_id => ("calendar_json", person_id)) ++
    [("policy_json", slots.policy_id), ("slots", "time_window")]

/-- `process_instance(world, instance)` of level1_oracle.py: resolve,
gather busy time, compute free windows, enumerate on the 15-minute grid,
filter, discard when fewer than `num_options` candidates survive,
otherwise rank and truncate. -/
def process_instance1 (world : World) (inst : TaskInstance) :
    Except String (Option OracleResult1 × DebugInfo1) :=
  match resolve_slots 1 world inst with
  | Except.error e => Except.error e
  | Except.ok slots =>
      match apply_level1_constraints world slots (level1_base world slots) with
      | Except.error e => Except.error e
      | Except.ok filtered =>
          if filtered.length < slots.num_options then
            Except.ok (none,
              ⟨(level1_base world slots).length, filtered.length,
                slots.num_options, true⟩)
          else
            Except.ok (some ⟨inst.instance_id,
                select_top_n filtered slots.num_options,
                explanationKeys1 slots, (level1_base world slots).length,
                filtered.length, slots.num_options⟩,
              ⟨(level1_base world slots).length, filtered.length,
                slots.num_options, false⟩)

/-! ### Level-3 orchestrator (level3_oracle.py) -/

/-- `participant.startswith("person_")`, over the character list. -/
def startsWithPerson (s : String) : Bool :=
  "person_".data.isPrefixOf s.data

/-- The `name -> id` dict built from `people_table` rows (later rows win,
as in a Python dict built by iteration). -/
def nameToId (people : List PersonRow) (nm : String) : Option String :=
  (people.reverse.find? fun p => p.person_name == nm).map PersonRow.person_id

/-- The mapping loop of `map_participant_names_to_ids`: ids that already
start with `person_` pass through, names are looked up, unknown names are
fatal. -/
def mapParticipantsGo (lookup : String → Option String) :
    List String → Except String (List String)
  | [] => Except.ok []
  | participant :: rest =>
      let mapped :=
        if startsWithPerson participant then Except.ok participant
        else
          match lookup participant with
          | some person_id => Except.ok person_id
          | none => Except.error "Level 3: participant not found"
      match mapped with
      | Except.error e => Except.error e
      | Except.ok person_id =>
          match mapParticipantsGo lookup rest with
          | Except.error e => Except.error e
          | Except.ok ids => Except.ok (person_id :: ids)

/-- `map_participant_names_to_ids(world, participants, instance_id)`. -/
def map_participant_names_to_ids (world : World)
    (participants : List String) : Except String (List String) :=
  match world.people_table with
  | none => Except.error "Level 3 requires world.sources.people_table"
  | some people => mapParticipantsGo (nameToId people) participants

/-- `filter_rooms_by_capacity(world, min_capacity, instance_id)`: the ids
of the rooms whose capacity reaches `min_capacity`, in table order. -/
def filter_rooms_by_capacity (world : World) (min_capacity : Int) :
    Except String (List String) :=
  match world.rooms_table with
  | none => Except.error "Level 3 requires world.sources.rooms_table"
  | some rooms =>
      Except.ok
        ((rooms.filter fun room => decide (min_capacity ≤ room.capacity)).map
          RoomRow.room_id)

/-- A tier-3 candidate: a time slot paired with a room id (`end` is a
reserved word, hence `endTime`). -/
structure Cand3 where
  start : Int
  endTime : Int
  room_id : String
  deriving DecidableEq

/-- `join_room_availability(world, candidates, valid_room_ids, tz_str,
instance_id)`: the full cross product of surviving candidates and
eligible rooms, keeping a pair exactly when the candidate overlaps none
of that room's busy intervals (rooms absent from the availability dict
have no busy intervals). -/
def join_room_availability (world : World) (candidates : List (Int × Int))
    (valid_room_ids : List String) : Except String (List Cand3) :=
  match world.room_availability_json with
  | none => Except.error "Level 3 requires world.sources.room_availability_json"
  | some avail =>
      Except.ok (candidates.flatMap fun c =>
        valid_room_ids.filterMap fun room_id =>
          let room_busy := (avail room_id).getD []
          if room_busy.any fun b => intervals_overlap c.1 c.2 b.1 b.2 then
            none
          else some ⟨c.1, c.2, room_id⟩)

/-- `get_sort_spec(instance, instance_id)`: the keys of the first thread
declaring a `sort_spec`, else the default key order. -/
def get_sort_spec (inst : TaskInstance) : List String :=
  match inst.comm_threads with
  | none => ["start", "end", "room_id"]
  | some threads =>
      match threads.findSome? fun th => th.thread_tags.bind ThreadTags.sort_spec
      with
      | some keys => keys
      | none => ["start", "end", "room_id"]

/-- One sort key's comparison inside `sort_candidates_level3`: `start` and
`end` compare as datetimes, anything else as the string
`candidate.get(key, "")`. -/
def cmpOneKey (k : String) (a b : Cand3) : Ordering :=
  if k = "start" then compare a.start b.start
  else if k = "end" then compare a.endTime b.endTime
  else
    let ga := if k = "room_id" then a.room_id else ""
    let gb := if k = "room_id" then b.room_id else ""
    compare ga gb

/-- Lexicographic combination of componentwise comparisons, as Python
compares key tuples. -/
def lexOrd : List Ordering → Ordering
  | [] => Ordering.eq
  | o :: os => if o = Ordering.eq then lexOrd os else o

/-- The full key comparison of `sort_candidates_level3`: the declared keys
followed by the `(start, end, room_id)` tie-break. -/
def cmpCand3 (sort_keys : List String) (a b : Cand3) : Ordering :=
  lexOrd ((sort_keys.map fun k => cmpOneKey k a b) ++
    [compare a.start b.start, compare a.endTime b.endTime,
      compare a.room_id b.room_id])

/-- `sort_candidates_level3(candidates, sort_keys, tz_str)`: Python's
stable ascending sort by the key tuple. -/
def sort_candidates_level3 (candidates : List Cand3)
    (sort_keys : List String) : List Cand3 :=
  List.insertionSort (fun a b => cmpCand3 sort_keys a b ≠ Ordering.gt)
    candidates

/-- The per-instance diagnostic counts at level 3. -/
structure DebugInfo3 where
  num_generated : Nat
  num_after_constraints : Nat
  num_after_room_join : Nat
  num_options : Nat
  discarded : Bool

/-- A level-3 oracle result. -/
structure OracleResult3 where
  instance_id : String
  feasible_candidates : List Cand3
  explanation_keys : ExplanationKeys
  num_generated : Nat
  num_after_constraints : Nat
  num_after_room_join : Nat
  num_options : Nat

/-- The tier-3 provenance manifest. -/
def explanationKeys3 (person_ids : List String) (policy_id : String)
    (inst : TaskInstance) : ExplanationKeys :=
  (person_ids.map fun person_id => ("calendar_json", person_id)) ++
    [("policy_tags", policy_id)] ++
    (match inst.comm_threads with
     | none => []
     | some threads =>
         (threads.filter fun th => th.thread_tags.isSome).map fun th =>
           ("comm_threads", th.thread_id)) ++
    [("people_table", "people_table"), ("rooms_table", "rooms_table"),
      ("room_availability_json", "room_availability_json"),
      ("slots", "time_window")]

/-- The candidate generation shared by the level-3 pipeline. -/
def level3_base (world : World) (slots : ResolvedSlots)
    (person_ids : List String) : List (Int × Int) :=
  enumerate_candidates world.timezone
    (compute_common_free_windows (gather_busy_intervals world person_ids)
      slots.time_window.1 slots.time_window.2)
    slots.duration_min slots.time_window.1 slots.time_window.2 15

/-- `process_instance(world, instance)` of level3_oracle.py: resolve (with
`num_options` forced to 3), map participants, gather busy time, compute
free windows, enumerate, filter, join against eligible rooms, discard
when fewer than `num_options` triples survive, otherwise sort by the
declared sort spec and truncate. -/
def process_instance3 (world : World) (inst : TaskInstance) :
    Except String (Option OracleResult3 × DebugInfo3) :=
  match resolve_slots 3 world inst with
  | Except.error e => Except.error e
  | Except.ok slots =>
      match map_participant_names_to_ids world slots.participants with
      | Except.error e => Except.error e
      | Except.ok person_ids =>
          match apply_level3_constraints world
            { slots with participants := person_ids }
            (level3_base world slots person_ids) inst with
          | Except.error e => Except.error e
          | Except.ok filtered =>
              match filter_rooms_by_capacity world (person_ids.length : Int)
              with
              | Except.error e => Except.error e
              | Except.ok valid_room_ids =>
                  match join_room_availability world filtered valid_room_ids
                  with
                  | Except.error e => Except.error e
                  | Except.ok room_candidates =>
                      if room_candidates.length < slots.num_options then
                        Except.ok (none,
                          ⟨(level3_base world slots person_ids).length,
                            filtered.length, room_candidates.length,
                            slots.num_options, true⟩)
                      else
                        Except.ok (some ⟨inst.instance_id,
                            (sort_candidates_level3 room_candidates
                              (get_sort_spec inst)).take slots.num_options,
                            explanationKeys3 person_ids slots.policy_id inst,
                            (level3_base world slots person_ids).length,
                            filtered.length, room_candidates.length,
                            slots.num_options⟩,
                          ⟨(level3_base world slots person_ids).length,
                            filtered.length, room_candidates.length,
                            slots.num_options, false⟩)

/-! ## Theorems -/

instance : IsTotal (Int × Int) (fun a b => a.1 ≤ b.1) :=
  ⟨fun a b => le_total a.1 b.1⟩

instance : IsTrans (Int × Int) (fun a b => a.1 ≤ b.1) :=
  ⟨fun _ _ _ hab hbc => le_trans hab hbc⟩

theorem mem_ite_singleton {α : Type} {c : Prop} [Decidable c] {w x : α} :
    (w ∈ if c then [x] else []) ↔ c ∧ w = x := by
  by_cases h : c
  · simp [h]
  · simp [h]

theorem freeSweep_nil (ws we cur : Int) :
    freeSweep ws we [] cur = if cur < we then [(cur, we)] else [] := rfl

theorem freeSweep_cons_skip {ws we bs be cur : Int} {rest : List (Int × Int)}
    (h : be ≤ ws) :
    freeSweep ws we ((bs, be) :: rest) cur = freeSweep ws we rest cur := by
  rw [freeSweep, if_pos h]

theorem freeSweep_cons_brk {ws we bs be cur : Int} {rest : List (Int × Int)}
    (h1 : ¬be ≤ ws) (h2 : bs ≥ we) :
    freeSweep ws we ((bs, be) :: rest) cur =
      if cur < we then [(cur, we)] else [] := by
  rw [freeSweep, if_neg h1, if_pos h2]

theorem freeSweep_cons_main {ws we bs be cur : Int} {rest : List (Int × Int)}
    (h1 : ¬be ≤ ws) (h2 : ¬bs ≥ we) :
    freeSweep ws we ((bs, be) :: rest) cur =
      (if cur < max bs ws then [(cur, max bs ws)] else []) ++
        freeSweep ws we rest (max cur (min be we)) := by
  rw [freeSweep, if_neg h1, if_neg h2]

/-- Every window the sweep emits is nonempty, starts no earlier than the
running `current_start`, and ends inside the request window. -/
theorem freeSweep_bounds (ws we : Int) (hwe : ws ≤ we) :
    ∀ (l : List (Int × Int)) (cur : Int), ws ≤ cur →
      ∀ w ∈ freeSweep ws we l cur, cur ≤ w.1 ∧ w.1 < w.2 ∧ w.2 ≤ we := by
  intro l
  induction l with
  | nil =>
    intro cur _ w hw
    rw [freeSweep_nil, mem_ite_singleton] at hw
    obtain ⟨h1, rfl⟩ := hw
    exact ⟨le_refl _, h1, le_refl _⟩
  | cons p rest ih =>
    obtain ⟨bs, be⟩ := p
    intro cur hcur w hw
    by_cases hskip : be ≤ ws
    · rw [freeSweep_cons_skip hskip] at hw
      exact ih cur hcur w hw
    · by_cases hbrk : bs ≥ we
      · rw [freeSweep_cons_brk hskip hbrk, mem_ite_singleton] at hw
        obtain ⟨h1, rfl⟩ := hw
        exact ⟨le_refl _, h1, le_refl _⟩
      · rw [freeSweep_cons_main hskip hbrk, List.mem_append] at hw
        rcases hw with hw | hw
        · rw [mem_ite_singleton] at hw
          obtain ⟨h1, rfl⟩ := hw
          refine ⟨le_refl _, h1, ?_⟩
          show max bs ws ≤ we
          exact max_le (le_of_lt (not_le.mp hbrk)) hwe
        · have hle : cur ≤ max cur (min be we) := le_max_left _ _
          have := ih (max cur (min be we)) (le_trans hcur hle) w hw
          exact ⟨le_trans hle this.1, this.2.1, this.2.2⟩

/-- The sweep's output windows are ordered: each ends no later than the
next begins. -/
theorem freeSweep_ordered (ws we : Int) (hwe : ws ≤ we) :
    ∀ (l : List (Int × Int)) (cur : Int), ws ≤ cur →
      l.Pairwise (fun a b => a.1 ≤ b.1) → (∀ p ∈ l, p.1 ≤ p.2) →
      (freeSweep ws we l cur).Pairwise (fun a b => a.2 ≤ b.1) := by
  intro l
  induction l with
  | nil =>
    intro cur _ _ _
    rw [freeSweep_nil]
    by_cases h : cur < we
    · rw [if_pos h]; exact List.pairwise_singleton _ _
    · rw [if_neg h]; exact List.Pairwise.nil
  | cons p rest ih =>
    obtain ⟨bs, be⟩ := p
    intro cur hcur hsorted hwf
    by_cases hskip : be ≤ ws
    · rw [freeSweep_cons_skip hskip]
      exact ih cur hcur hsorted.of_cons
        (fun q hq => hwf q (List.mem_cons_of_mem _ hq))
    · by_cases hbrk : bs ≥ we
      · rw [freeSweep_cons_brk hskip hbrk]
        by_cases h : cur < we
        · rw [if_pos h]; exact List.pairwise_singleton _ _
        · rw [if_neg h]; exact List.Pairwise.nil
      · rw [freeSweep_cons_main hskip hbrk, List.pairwise_append]
        have hhead : bs ≤ be := hwf (bs, be) (List.mem_cons_self _ _)
        have hle : cur ≤ max cur (min be we) := le_max_left _ _
        have hws2 : ws ≤ max cur (min be we) := le_trans hcur hle
        refine ⟨?_, ih _ hws2 hsorted.of_cons
          (fun q hq => hwf q (List.mem_cons_of_mem _ hq)), ?_⟩
        · by_cases h : cur < max bs ws
          · rw [if_pos h]; exact List.pairwise_singleton _ _
          · rw [if_neg h]; exact List.Pairwise.nil
        · intro a ha b hb
          rw [mem_ite_singleton] at ha
          obtain ⟨h1, rfl⟩ := ha
          have hb1 := (freeSweep_bounds ws we hwe rest _ hws2 b hb).1
          show max bs ws ≤ b.1
          exact max_le
            (le_trans (le_trans (le_min hhead (le_of_lt (not_le.mp hbrk)))
              (le_max_right _ _)) hb1)
            (le_trans hws2 hb1)

/-- The sweep covers exactly the busy-free part of
`[current_start, window_end)`. -/
theorem freeSweep_cover (ws we : Int) :
    ∀ (l : List (Int × Int)) (cur : Int), ws ≤ cur →
      l.Pairwise (fun a b => a.1 ≤ b.1) →
      ∀ t : Int,
        (∃ w ∈ freeSweep ws we l cur, w.1 ≤ t ∧ t < w.2) ↔
        (cur ≤ t ∧ t < we ∧ ∀ p ∈ l, ¬(p.1 ≤ t ∧ t < p.2)) := by
  intro l
  induction l with
  | nil =>
    intro cur _ _ t
    rw [freeSweep_nil]
    constructor
    · rintro ⟨w, hw, h1, h2⟩
      rw [mem_ite_singleton] at hw
      obtain ⟨h3, rfl⟩ := hw
      exact ⟨h1, h2, by simp⟩
    · rintro ⟨h1, h2, -⟩
      exact ⟨(cur, we), mem_ite_singleton.mpr ⟨by omega, rfl⟩, h1, h2⟩
  | cons p rest ih =>
    obtain ⟨bs, be⟩ := p
    intro cur hcur hsorted t
    have hrest_start : ∀ q ∈ rest, bs ≤ q.1 :=
      (List.pairwise_cons.mp hsorted).1
    by_cases hskip : be ≤ ws
    · rw [freeSweep_cons_skip hskip, ih cur hcur hsorted.of_cons t]
      constructor
      · rintro ⟨h1, h2, h3⟩
        refine ⟨h1, h2, ?_⟩
        intro q hq
        rcases List.mem_cons.mp hq with rfl | hq
        · show ¬(bs ≤ t ∧ t < be)
          omega
        · exact h3 q hq
      · rintro ⟨h1, h2, h3⟩
        exact ⟨h1, h2, fun q hq => h3 q (List.mem_cons_of_mem _ hq)⟩
    · by_cases hbrk : bs ≥ we
      · rw [freeSweep_cons_brk hskip hbrk]
        constructor
        · rintro ⟨w, hw, h1, h2⟩
          rw [mem_ite_singleton] at hw
          obtain ⟨h3, rfl⟩ := hw
          have h1' : cur ≤ t := h1
          have h2' : t < we := h2
          refine ⟨h1', h2', ?_⟩
          intro q hq
          rcases List.mem_cons.mp hq with rfl | hq
          · show ¬(bs ≤ t ∧ t < be)
            omega
          · have := hrest_start q hq
            show ¬(q.1 ≤ t ∧ t < q.2)
            omega
        · rintro ⟨h1, h2, -⟩
          exact ⟨(cur, we), mem_ite_singleton.mpr ⟨by omega, rfl⟩, h1, h2⟩
      · rw [freeSweep_cons_main hskip hbrk]
        have hle : cur ≤ max cur (min be we) := le_max_left _ _
        have hws2 : ws ≤ max cur (min be we) := le_trans hcur hle
        have hih := ih (max cur (min be we)) hws2 hsorted.of_cons t
        constructor
        · rintro ⟨w, hw, hw1, hw2⟩
          rw [List.mem_append] at hw
          rcases hw with hw | hw
          · rw [mem_ite_singleton] at hw
            obtain ⟨h5, rfl⟩ := hw
            have hw1' : cur ≤ t := hw1
            have hw2' : t < max bs ws := hw2
            have htbs : t < bs := by
              rcases max_choice bs ws with h | h <;> rw [h] at hw2' <;> omega
            have htwe : t < we := by
              have := not_le.mp hbrk
              omega
            refine ⟨hw1', htwe, ?_⟩
            intro q hq
            rcases List.mem_cons.mp hq with rfl | hq
            · show ¬(bs ≤ t ∧ t < be)
              omega
            · have := hrest_start q hq
              show ¬(q.1 ≤ t ∧ t < q.2)
              omega
          · obtain ⟨hr1, hr2, hr3⟩ := hih.mp ⟨w, hw, hw1, hw2⟩
            have hmin : min be we ≤ t := le_trans (le_max_right _ _) hr1
            have hbe : be ≤ t := by
              rcases min_choice be we with h | h <;> rw [h] at hmin <;> omega
            refine ⟨le_trans hle hr1, hr2, ?_⟩
            intro q hq
            rcases List.mem_cons.mp hq with rfl | hq
            · show ¬(bs ≤ t ∧ t < be)
              omega
            · exact hr3 q hq
        · rintro ⟨h1, h5, h6⟩
          have hhead : ¬(bs ≤ t ∧ t < be) := h6 (bs, be) (List.mem_cons_self _ _)
          by_cases hlt : t < max bs ws
          · exact ⟨(cur, max bs ws),
              List.mem_append.mpr
                (Or.inl (mem_ite_singleton.mpr ⟨lt_of_le_of_lt h1 hlt, rfl⟩)),
              h1, hlt⟩
          · have hbs : bs ≤ t := le_trans (le_max_left bs ws) (not_lt.mp hlt)
            have hbe : be ≤ t := by omega
            have hcur2 : max cur (min be we) ≤ t :=
              max_le h1 (le_trans (min_le_left _ _) hbe)
            obtain ⟨w, hw, hw1, hw2⟩ := hih.mpr
              ⟨hcur2, h5, fun q hq => h6 q (List.mem_cons_of_mem _ hq)⟩
            exact ⟨w, List.mem_append.mpr (Or.inr hw), hw1, hw2⟩

/-- Transfer of membership through the stable sort. -/
theorem mem_sortBusyByStart {busy : List (Int × Int)} {p : Int × Int} :
    p ∈ sortBusyByStart busy ↔ p ∈ busy :=
  (List.perm_insertionSort _ busy).mem_iff

theorem sortBusyByStart_sorted (busy : List (Int × Int)) :
    (sortBusyByStart busy).Pairwise (fun a b => a.1 ≤ b.1) :=
  List.sorted_insertionSort _ busy

/-- Every returned free window is nonempty and contained in the request
window. -/
theorem compute_free_bounds (busy : List (Int × Int)) (ws we : Int)
    (hw : ws < we) :
    ∀ w ∈ compute_common_free_windows busy ws we,
      ws ≤ w.1 ∧ w.1 < w.2 ∧ w.2 ≤ we := by
  intro w hmem
  unfold compute_common_free_windows at hmem
  by_cases hb : busy.isEmpty
  · rw [if_pos hb, List.mem_singleton] at hmem
    subst hmem
    exact ⟨le_refl _, hw, le_refl _⟩
  · rw [if_neg hb] at hmem
    exact freeSweep_bounds ws we hw.le _ ws (le_refl _) w hmem

/-- The returned free windows are ordered left to right. -/
theorem compute_free_ordered (busy : List (Int × Int)) (ws we : Int)
    (hw : ws ≤ we) (hwf : ∀ p ∈ busy, p.1 ≤ p.2) :
    (compute_common_free_windows busy ws we).Pairwise
      (fun a b => a.2 ≤ b.1) := by
  unfold compute_common_free_windows
  by_cases hb : busy.isEmpty
  · rw [if_pos hb]
    exact List.pairwise_singleton _ _
  · rw [if_neg hb]
    exact freeSweep_ordered ws we hw _ ws (le_refl _)
      (sortBusyByStart_sorted busy)
      (fun p hp => hwf p (mem_sortBusyByStart.mp hp))

/-- A point of the request window is busy-free exactly when some returned
free window contains it. -/
theorem compute_free_cover (busy : List (Int × Int)) (ws we : Int)
    (t : Int) (ht1 : ws ≤ t) (ht2 : t < we) :
    (∀ p ∈ busy, ¬(p.1 ≤ t ∧ t < p.2)) ↔
      ∃ w ∈ compute_common_free_windows busy ws we, w.1 ≤ t ∧ t < w.2 := by
  unfold compute_common_free_windows
  by_cases hb : busy.isEmpty
  · rw [if_pos hb]
    rw [List.isEmpty_iff] at hb
    subst hb
    simp only [List.not_mem_nil, List.mem_singleton]
    constructor
    · intro _
      exact ⟨(ws, we), rfl, ht1, ht2⟩
    · intro _ p hp
      exact absurd hp (by simp)
  · rw [if_neg hb]
    rw [freeSweep_cover ws we _ ws (le_refl _) (sortBusyByStart_sorted busy) t]
    constructor
    · intro h
      exact ⟨ht1, ht2, fun p hp => h p (mem_sortBusyByStart.mp hp)⟩
    · rintro ⟨-, -, h⟩
      exact fun p hp => h p (mem_sortBusyByStart.mpr hp)

theorem overlap_eq_false_of_le {a b : Int × Int} (h : a.2 ≤ b.1) :
    intervals_overlap a.1 a.2 b.1 b.2 = false := by
  simp only [intervals_overlap, Bool.and_eq_false_iff, decide_eq_false_iff_not,
    not_lt]
  right
  omega

/-- C3 (counterexample): on the busy list `[(7, 3)]` — an interval whose
end precedes its start — the sweep emits the two overlapping windows
`(0, 7)` and `(3, 10)`, so the point `5`, which lies inside no busy
interval, is covered by two distinct returned windows and the returned
windows are not pairwise non-overlapping. -/
theorem c3_reversed_busy_counterexample :
    compute_common_free_windows [((7 : Int), (3 : Int))] 0 10 =
      [(0, 7), (3, 10)] ∧
    intervals_overlap 0 7 3 10 = true ∧
    (∀ p ∈ [((7 : Int), (3 : Int))], ¬(p.1 ≤ (5 : Int) ∧ (5 : Int) < p.2)) ∧
    ((0 : Int) ≤ 5 ∧ (5 : Int) < 10) := by
  refine ⟨by decide, by decide, ?_, by decide⟩
  decide

/-- C3 (amended): for every list of busy intervals **each with start ≤
end** and every window with `window_start < window_end`, the windows
returned by `compute_common_free_windows` are pairwise non-overlapping;
a point of the window lies inside no busy interval exactly when it lies
in some returned free window; such a window is unique; and every point
inside a returned free window lies in no busy interval. -/
theorem c3_free_window_complement (busy : List (Int × Int)) (ws we : Int)
    (hw : ws < we) (hwf : ∀ p ∈ busy, p.1 ≤ p.2) :
    (compute_common_free_windows busy ws we).Pairwise
      (fun a b => intervals_overlap a.1 a.2 b.1 b.2 = false) ∧
    (∀ t : Int, ws ≤ t → t < we →
      ((∀ p ∈ busy, ¬(p.1 ≤ t ∧ t < p.2)) ↔
        ∃ w ∈ compute_common_free_windows busy ws we, w.1 ≤ t ∧ t < w.2)) ∧
    (∀ t : Int, ∀ w1 w2, w1 ∈ compute_common_free_windows busy ws we →
      w2 ∈ compute_common_free_windows busy ws we →
      w1.1 ≤ t → t < w1.2 → w2.1 ≤ t → t < w2.2 → w1 = w2) ∧
    (∀ w ∈ compute_common_free_windows busy ws we, ∀ t : Int,
      w.1 ≤ t → t < w.2 → ∀ p ∈ busy, ¬(p.1 ≤ t ∧ t < p.2)) := by
  have hord := compute_free_ordered busy ws we hw.le hwf
  have hbnd := compute_free_bounds busy ws we hw
  refine ⟨hord.imp (fun h => overlap_eq_false_of_le h), ?_, ?_, ?_⟩
  · intro t ht1 ht2
    exact compute_free_cover busy ws we t ht1 ht2
  · intro t w1 w2 h1 h2 h11 h12 h21 h22
    by_contra hne
    have hsym : Symmetric (fun a b : Int × Int => a.2 ≤ b.1 ∨ b.2 ≤ a.1) :=
      fun a b h => h.symm
    have := List.Pairwise.forall hsym
      (hord.imp (fun h => Or.inl h)) h1 h2 hne
    rcases this with h | h
    · omega
    · omega
  · intro w hwmem t ht1 ht2
    have hb := hbnd w hwmem
    exact (compute_free_cover busy ws we t (le_trans hb.1 ht1)
      (lt_of_lt_of_le ht2 hb.2.2)).mpr ⟨w, hwmem, ht1, ht2⟩

/-- C3 (witness): a concrete application of the amended theorem. -/
theorem c3_free_window_complement_witness :
    (compute_common_free_windows [((30 : Int), 60)] 0 100).Pairwise
      (fun a b => intervals_overlap a.1 a.2 b.1 b.2 = false) :=
  (c3_free_window_complement [(30, 60)] 0 100 (by decide)
    (by decide)).1

/-- C10: for every busy interval list and every window with
`window_start < window_end`, each window returned by
`compute_common_free_windows` is non-empty and contained in the request
(`window_start ≤ start < end ≤ window_end`), and the empty busy list
yields exactly the single window `(window_start, window_end)`. -/
theorem c10_free_windows_bounds (busy : List (Int × Int)) (ws we : Int)
    (hw : ws < we) :
    (∀ w ∈ compute_common_free_windows busy ws we,
      ws ≤ w.1 ∧ w.1 < w.2 ∧ w.2 ≤ we) ∧
    (busy = [] → compute_common_free_windows busy ws we = [(ws, we)]) := by
  refine ⟨compute_free_bounds busy ws we hw, ?_⟩
  intro h
  subst h
  rfl

/-- C10 (witness): concrete applications of the theorem. -/
theorem c10_free_windows_bounds_witness :
    ((0 : Int) ≤ 0 ∧ (0 : Int) < 30 ∧ (30 : Int) ≤ 100) ∧
    compute_common_free_windows [] 0 100 = [((0 : Int), (100 : Int))] :=
  ⟨(c10_free_windows_bounds [(30, 60)] 0 100 (by decide)).1 (0, 30)
      (by decide),
    (c10_free_windows_bounds [] 0 100 (by decide)).2 rfl⟩

/-- C1: evaluating `parse_datetime` at the failing input.  A negative
offset string (`"2026-01-19T13:00:00-05:00"`, wall 13:00 = 780, offset
−300) contains no `+` and no trailing `Z`, so the code routes it to the
offset-less branch and overwrites the parsed offset with the `tz`
argument (+09:00 = 540): the result denotes instant 240, not the instant
1080 the text wrote.  Positive and `Z` offsets are preserved and a string
without `T` fails, as the claim says. -/
theorem c1_negative_offset_rewritten :
    parse_datetime ⟨true, 780, OffsetMark.minusMark 300⟩ (some ⟨540⟩) =
      Except.ok ⟨780, 540⟩ ∧
    instantOf ⟨780, 540⟩ = 240 ∧
    textInstant ⟨true, 780, OffsetMark.minusMark 300⟩ 540 = 1080 ∧
    parse_datetime ⟨true, 780, OffsetMark.plusMark 300⟩ (some ⟨540⟩) =
      Except.ok ⟨780, 300⟩ ∧
    instantOf ⟨780, 300⟩ = textInstant ⟨true, 780, OffsetMark.plusMark 300⟩ 540 ∧
    parse_datetime ⟨true, 780, OffsetMark.zuluMark⟩ (some ⟨540⟩) =
      Except.ok ⟨780, 0⟩ ∧
    instantOf ⟨780, 0⟩ = textInstant ⟨true, 780, OffsetMark.zuluMark⟩ 540 ∧
    parse_datetime ⟨false, 780, OffsetMark.noMark⟩ (some ⟨540⟩) =
      Except.error "Invalid datetime format" :=
  ⟨rfl, rfl, rfl, rfl, rfl, rfl, rfl, rfl⟩

/-- C5 (counterexample): `resolve_slots` succeeds on a tier-1 instance
whose slots carry `duration_min = 0` and `num_options = 0`, and returns
them unchanged, so the returned record violates both claimed
invariants. -/
theorem c5_passthrough_counterexample :
    resolve_slots 1
        ⟨⟨540⟩, fun _ => none, fun _ => none, none, none, none, none⟩
        ⟨"i1", ⟨["a"], (0, 60), 0, 0, some "p"⟩, none⟩ =
      Except.ok ⟨["a"], (0, 60), 0, 0, "p"⟩ ∧
    ¬(0 < (⟨["a"], (0, 60), 0, 0, "p"⟩ : ResolvedSlots).duration_min) ∧
    ¬(1 ≤ (⟨["a"], (0, 60), 0, 0, "p"⟩ : ResolvedSlots).num_options) :=
  ⟨rfl, by decide, by decide⟩

/-- C5 (amended): on success `resolve_slots` returns `duration_min` equal
to the instance's at every tier, and `num_options` equal to the
instance's at tiers 1 and 2 but forced to 3 at tier 3; consequently the
returned record satisfies `duration_min > 0` exactly when the instance
slots do, satisfies `num_options ≥ 1` exactly when the instance slots do
at tiers 1 and 2, and satisfies `num_options ≥ 1` unconditionally at
tier 3. -/
theorem c5_resolved_invariants (level : Nat) (world : World)
    (inst : TaskInstance) (r : ResolvedSlots)
    (h : resolve_slots level world inst = Except.ok r) :
    r.duration_min = inst.slots.duration_min ∧
    ((level = 1 ∨ level = 2) → r.num_options = inst.slots.num_options) ∧
    (level = 3 → r.num_options = 3) ∧
    (0 < r.duration_min ↔ 0 < inst.slots.duration_min) ∧
    ((level = 1 ∨ level = 2) →
      (1 ≤ r.num_options ↔ 1 ≤ inst.slots.num_options)) ∧
    (level = 3 → 1 ≤ r.num_options) := by
  unfold resolve_slots at h
  split_ifs at h with h1 h2 h3
  · subst h1
    rcases hp : inst.slots.policy_id with - | p
    · rw [hp] at h
      exact Except.noConfusion h
    · simp only [hp] at h
      injection h with h4
      subst h4
      refine ⟨rfl, fun _ => rfl, ?_, Iff.rfl, fun _ => Iff.rfl, ?_⟩
      · intro he
        exact absurd he (by decide)
      · intro he
        exact absurd he (by decide)
  · subst h2
    rcases hp : inst.slots.policy_id with - | p
    · rw [hp] at h
      exact Except.noConfusion h
    · simp only [hp] at h
      split at h
      · exact Except.noConfusion h
      · injection h with h4
        subst h4
        refine ⟨rfl, fun _ => rfl, ?_, Iff.rfl, fun _ => Iff.rfl, ?_⟩
        · intro he
          exact absurd he (by decide)
        · intro he
          exact absurd he (by decide)
  · subst h3
    rcases hp : inst.slots.policy_id with - | p
    · rw [hp] at h
      exact Except.noConfusion h
    · simp only [hp] at h
      split at h
      · exact Except.noConfusion h
      · injection h with h4
        subst h4
        refine ⟨rfl, ?_, fun _ => rfl, Iff.rfl, ?_, ?_⟩
        · intro he
          rcases he with he | he
          · exact absurd he (by decide)
          · exact absurd he (by decide)
        · intro he
          rcases he with he | he
          · exact absurd he (by decide)
          · exact absurd he (by decide)
        · intro _
          show (1 : Nat) ≤ 3
          decide

/-- C5 (witness): a concrete application of the amended theorem. -/
theorem c5_resolved_invariants_witness :
    (⟨["a"], (0, 60), 30, 2, "p"⟩ : ResolvedSlots).duration_min =
      (⟨"i1", ⟨["a"], (0, 60), 30, 2, some "p"⟩, none⟩ :
        TaskInstance).slots.duration_min :=
  (c5_resolved_invariants 1
    ⟨⟨540⟩, fun _ => none, fun _ => none, none, none, none, none⟩
    ⟨"i1", ⟨["a"], (0, 60), 30, 2, some "p"⟩, none⟩
    ⟨["a"], (0, 60), 30, 2, "p"⟩ rfl).1

/-- C6: the required-windows filter keeps a candidate exactly when the
candidate list contains it and it is fully contained in at least one of
the required windows (a logical OR over the windows). -/
theorem c6_required_windows_or (required : List (Int × Int))
    (candidates : List (Int × Int)) (c : Int × Int) :
    c ∈ filter_required_windows candidates required ↔
      c ∈ candidates ∧ ∃ w ∈ required, w.1 ≤ c.1 ∧ c.2 ≤ w.2 := by
  unfold filter_required_windows required_windows_keep
  rw [List.mem_filter]
  simp

/-- C8: the work-hours filter is idempotent: re-filtering an
already-filtered candidate list with the same rule returns it
unchanged. -/
theorem c8_work_hours_idempotent (tz : Tz) (s e : Int)
    (days : Option (List Int)) (cs : List (Int × Int)) :
    filter_work_hours (filter_work_hours cs s e days tz) s e days tz =
      filter_work_hours cs s e days tz := by
  unfold filter_work_hours
  rw [List.filter_filter]
  simp

/-- C9: a participant id with no entry in the calendar table is silently
skipped: it contributes no busy intervals to `gather_busy_intervals` and
no expanded busy intervals to the buffer-minutes filter, so removing it
from the participant list changes neither result. -/
theorem c9_unknown_participant_skipped (world : World) (pid : String)
    (h : world.calendar_json pid = none) (ps1 ps2 : List String)
    (buffer_minutes : Int) (cands : List (Int × Int)) :
    gather_busy_intervals world (ps1 ++ pid :: ps2) =
      gather_busy_intervals world (ps1 ++ ps2) ∧
    filter_buffer_min cands buffer_minutes world (ps1 ++ pid :: ps2) =
      filter_buffer_min cands buffer_minutes world (ps1 ++ ps2) := by
  constructor
  · unfold gather_busy_intervals
    rw [List.flatMap_append, List.flatMap_append, List.flatMap_cons, h]
    simp
  · unfold filter_buffer_min expanded_busy
    rw [List.flatMap_append, List.flatMap_append, List.flatMap_cons, h]
    simp

/-- C9 (witness): a concrete application of the theorem. -/
theorem c9_unknown_participant_skipped_witness :
    gather_busy_intervals
        ⟨⟨540⟩, fun _ => none, fun _ => none, none, none, none, none⟩
        (["a"] ++ "x" :: ["b"]) =
      gather_busy_intervals
        ⟨⟨540⟩, fun _ => none, fun _ => none, none, none, none, none⟩
        (["a"] ++ ["b"]) :=
  (c9_unknown_participant_skipped
    ⟨⟨540⟩, fun _ => none, fun _ => none, none, none, none, none⟩
    "x" rfl ["a"] ["b"] 15 []).1

theorem ite_none_eq_some {α : Type} {c : Prop} [Decidable c] {x y : α} :
    ((if c then none else some x) = some y) ↔ ¬c ∧ x = y := by
  by_cases h : c
  · simp [h]
  · simp [h]

theorem length_flatMap_le {α β : Type} (l : List α) (f : α → List β)
    (K : Nat) (h : ∀ a, (f a).length ≤ K) :
    (l.flatMap f).length ≤ l.length * K := by
  induction l with
  | nil => simp
  | cons x xs ih =>
      simp only [List.flatMap_cons, List.length_append, List.length_cons]
      have hx := h x
      have h2 : (xs.length + 1) * K = xs.length * K + K := Nat.succ_mul _ _
      omega

/-- C4: with `k` surviving time candidates and the eligible rooms
selected by `filter_rooms_by_capacity`, the room join emits at most
`k × r` triples, `(start, end, room_id)` is in its output exactly when
the candidate survived, the room is eligible, and the candidate overlaps
none of that room's busy intervals, and a room is eligible exactly when
some row of the rooms table gives it capacity at least `min_capacity`. -/
theorem c4_room_join_cardinality (world : World) (rooms : List RoomRow)
    (avail : String → Option (List (Int × Int)))
    (hrooms : world.rooms_table = some rooms)
    (havail : world.room_availability_json = some avail)
    (candidates : List (Int × Int)) (min_capacity : Int)
    (ids : List String) (triples : List Cand3)
    (hids : filter_rooms_by_capacity world min_capacity = Except.ok ids)
    (htr : join_room_availability world candidates ids = Except.ok triples) :
    triples.length ≤ candidates.length * ids.length ∧
    (∀ s e rid, (⟨s, e, rid⟩ : Cand3) ∈ triples ↔
      ((s, e) ∈ candidates ∧ rid ∈ ids ∧
        ∀ b ∈ (avail rid).getD [], intervals_overlap s e b.1 b.2 = false)) ∧
    (∀ rid, rid ∈ ids ↔
      ∃ room ∈ rooms, room.room_id = rid ∧ min_capacity ≤ room.capacity) := by
  unfold filter_rooms_by_capacity at hids
  rw [hrooms] at hids
  injection hids with hids
  subst hids
  unfold join_room_availability at htr
  rw [havail] at htr
  injection htr with htr
  subst htr
  refine ⟨?_, ?_, ?_⟩
  · exact length_flatMap_le _ _ _ (fun c => List.length_filterMap_le _ _)
  · intro s e rid
    rw [List.mem_flatMap]
    constructor
    · rintro ⟨c, hc, hmem⟩
      rw [List.mem_filterMap] at hmem
      obtain ⟨room_id, hrid, heq⟩ := hmem
      rw [ite_none_eq_some] at heq
      obtain ⟨hnov, heq⟩ := heq
      cases heq
      refine ⟨hc, hrid, ?_⟩
      intro b hb
      rw [List.any_eq_true] at hnov
      push_neg at hnov
      have := hnov b hb
      cases hov : intervals_overlap c.1 c.2 b.1 b.2
      · rfl
      · exact absurd hov this
    · rintro ⟨hc, hrid, hnov⟩
      refine ⟨(s, e), hc, ?_⟩
      rw [List.mem_filterMap]
      refine ⟨rid, hrid, ?_⟩
      rw [ite_none_eq_some]
      refine ⟨?_, rfl⟩
      rw [List.any_eq_true]
      rintro ⟨b, hb, hov⟩
      rw [hnov b hb] at hov
      exact Bool.noConfusion hov
  · intro rid
    rw [List.mem_map]
    constructor
    · rintro ⟨room, hroom, rfl⟩
      rw [List.mem_filter] at hroom
      exact ⟨room, hroom.1, rfl, of_decide_eq_true hroom.2⟩
    · rintro ⟨room, hroom, rfl, hcap⟩
      exact ⟨room, List.mem_filter.mpr ⟨hroom, decide_eq_true hcap⟩, rfl⟩

/-- C4 (witness): a concrete application of the theorem. -/
theorem c4_room_join_cardinality_witness :
    ([⟨0, 30, "r1"⟩] : List Cand3).length ≤
      [((0 : Int), (30 : Int)), (55, 85)].length * ["r1"].length :=
  (c4_room_join_cardinality
    ⟨⟨540⟩, fun _ => none, fun _ => none, none, none,
      some [⟨"r1", 5⟩, ⟨"r2", 0⟩],
      some (fun rid => if rid = "r1" then some [(50, 60)] else none)⟩
    [⟨"r1", 5⟩, ⟨"r2", 0⟩]
    (fun rid => if rid = "r1" then some [(50, 60)] else none)
    rfl rfl [(0, 30), (55, 85)] 1 ["r1"] [⟨0, 30, "r1"⟩]
    rfl rfl).1

/-- Every candidate the enumeration loop emits starts a whole number of
grid steps after the loop's aligned starting point. -/
theorem enumFrom_start_mod (fe tws twe dur grid : Int) :
    ∀ (fuel : Nat) (cur : Int), ∀ c ∈ enumFrom fe tws twe dur grid fuel cur,
      ∃ k : Nat, c.1 = cur + grid * k := by
  intro fuel
  induction fuel with
  | zero =>
      intro cur c hc
      simp [enumFrom] at hc
  | succ n ih =>
      intro cur c hc
      rw [enumFrom] at hc
      split at hc
      · rw [List.mem_append] at hc
        rcases hc with hc | hc
        · split at hc
          · rw [List.mem_singleton] at hc
            subst hc
            exact ⟨0, by simp⟩
          · simp at hc
        · obtain ⟨k, hk⟩ := ih (cur + grid) c hc
          refine ⟨k + 1, ?_⟩
          rw [hk]
          push_cast
          ring
      · simp at hc

/-- The aligned loop start has a wall clock divisible by the grid, for
any grid dividing the hour. -/
theorem gridAlignedStart_mod (tz : Tz) (grid : Int)
    (hdvd : grid ∣ 60) (wsr fs : Int) :
    wallOf tz (gridAlignedStart tz grid wsr fs) % grid = 0 := by
  unfold gridAlignedStart minute_of_hour
  have h60 : ∀ x : Int, x % 60 % grid = x % grid :=
    fun x => Int.emod_emod_of_dvd x hdvd
  by_cases hm : wallOf tz (max fs wsr) % 60 % grid ≠ 0
  · rw [if_pos hm]
    have hx : wallOf tz (max fs wsr +
        (grid - wallOf tz (max fs wsr) % 60 % grid)) =
        wallOf tz (max fs wsr) +
          (grid - wallOf tz (max fs wsr) % 60 % grid) := by
      unfold wallOf
      ring
    rw [hx, h60 (wallOf tz (max fs wsr))]
    have hy : wallOf tz (max fs wsr) +
        (grid - wallOf tz (max fs wsr) % grid) =
        grid * (wallOf tz (max fs wsr) / grid) + grid * 1 := by
      rw [Int.emod_def]
      ring
    rw [hy, ← mul_add, Int.mul_emod_right]
  · rw [if_neg hm]
    push_neg at hm
    rw [h60] at hm
    exact hm

/-- C7 (counterexample): with `grid_minutes = 25` (which does not divide
the hour), the enumeration emits the candidate starting at minute 615 =
10:15, whose minute of the hour is 15, not a multiple of 25. -/
theorem c7_grid_counterexample :
    ((615 : Int), (645 : Int)) ∈
      enumerate_candidates ⟨0⟩ [(540, 660)] 30 540 660 25 ∧
    minute_of_hour ⟨0⟩ 615 = 15 ∧ ¬((25 : Int) ∣ 15) := by
  refine ⟨by decide, by decide, ?_⟩
  omega

/-- C7 (amended): whenever `grid_minutes` is positive and divides 60 (in
particular for the default 15-minute grid), every candidate emitted by
`enumerate_candidates` has a start whose minute of the hour is a
multiple of `grid_minutes`. -/
theorem c7_grid_alignment (tz : Tz) (free : List (Int × Int))
    (dur tws twe grid : Int) (_hg : 0 < grid) (hdvd : grid ∣ 60) :
    ∀ c ∈ enumerate_candidates tz free dur tws twe grid,
      grid ∣ minute_of_hour tz c.1 := by
  intro c hc
  unfold enumerate_candidates at hc
  rw [List.mem_flatMap] at hc
  obtain ⟨fi, hfi, hmem⟩ := hc
  obtain ⟨k, hk⟩ := enumFrom_start_mod fi.2 tws twe dur grid _ _ c hmem
  have hal := gridAlignedStart_mod tz grid hdvd
    (round_to_grid tz tws grid) fi.1
  apply Int.dvd_of_emod_eq_zero
  unfold minute_of_hour
  rw [Int.emod_emod_of_dvd _ hdvd]
  have hw : wallOf tz c.1 =
      wallOf tz (gridAlignedStart tz grid (round_to_grid tz tws grid) fi.1) +
        grid * (k : Int) := by
    unfold wallOf
    rw [hk]
    ring
  rw [hw, Int.add_mul_emod_self_left]
  exact hal

/-- C7 (witness): a concrete application of the amended theorem on the
default 15-minute grid. -/
theorem c7_grid_alignment_witness :
    (15 : Int) ∣ minute_of_hour ⟨0⟩ 540 :=
  c7_grid_alignment ⟨0⟩ [(540, 660)] 30 540 660 15 (by decide)
    (by decide) (540, 570) (by decide)

/-- C2: at levels 1 and 3, `process_instance` never emits a partial
result: the instance is discarded (no result) exactly when the surviving
candidate count — candidate-room triples at level 3 — is strictly below
`num_options`, and an emitted result's `feasible_candidates` list has
length exactly `num_options`. -/
theorem c2_no_partial_results :
    (∀ (world : World) (inst : TaskInstance) (res : Option OracleResult1)
        (d : DebugInfo1),
      process_instance1 world inst = Except.ok (res, d) →
        (res = none ↔ d.num_after_constraints < d.num_options) ∧
        ∀ r, res = some r →
          r.feasible_candidates.length = d.num_options) ∧
    (∀ (world : World) (inst : TaskInstance) (res : Option OracleResult3)
        (d : DebugInfo3),
      process_instance3 world inst = Except.ok (res, d) →
        (res = none ↔ d.num_after_room_join < d.num_options) ∧
        ∀ r, res = some r →
          r.feasible_candidates.length = d.num_options) := by
  constructor
  · intro world inst res d h
    unfold process_instance1 at h
    cases hres : resolve_slots 1 world inst with
    | error e =>
        rw [hres] at h
        exact Except.noConfusion h
    | ok slots =>
        simp only [hres] at h
        cases happ : apply_level1_constraints world slots
          (level1_base world slots) with
        | error e =>
            rw [happ] at h
            exact Except.noConfusion h
        | ok filtered =>
            simp only [happ] at h
            by_cases hlt : filtered.length < slots.num_options
            · rw [if_pos hlt] at h
              injection h with h2
              injection h2 with h3 h4
              subst h3
              subst h4
              exact ⟨⟨fun _ => hlt, fun _ => rfl⟩,
                fun r hr => Option.noConfusion hr⟩
            · rw [if_neg hlt] at h
              injection h with h2
              injection h2 with h3 h4
              subst h3
              subst h4
              refine ⟨⟨fun hco => Option.noConfusion hco,
                fun hk => absurd hk hlt⟩, ?_⟩
              intro r hr
              injection hr with hr2
              subst hr2
              show (select_top_n filtered slots.num_options).length =
                slots.num_options
              unfold select_top_n sort_candidates
              rw [List.length_take,
                (List.perm_insertionSort candidate_le filtered).length_eq]
              exact min_eq_left (Nat.le_of_not_lt hlt)
  · intro world inst res d h
    unfold process_instance3 at h
    cases hres : resolve_slots 3 world inst with
    | error e =>
        rw [hres] at h
        exact Except.noConfusion h
    | ok slots =>
        simp only [hres] at h
        cases hmap : map_participant_names_to_ids world slots.participants
        with
        | error e =>
            rw [hmap] at h
            exact Except.noConfusion h
        | ok person_ids =>
            simp only [hmap] at h
            cases happ : apply_level3_constraints world
              { slots with participants := person_ids }
              (level3_base world slots person_ids) inst with
            | error e =>
                rw [happ] at h
                exact Except.noConfusion h
            | ok filtered =>
                simp only [happ] at h
                cases hrooms : filter_rooms_by_capacity world
                  (person_ids.length : Int) with
                | error e =>
                    rw [hrooms] at h
                    exact Except.noConfusion h
                | ok valid_room_ids =>
                    simp only [hrooms] at h
                    cases hjoin : join_room_availability world filtered
                      valid_room_ids with
                    | error e =>
                        rw [hjoin] at h
                        exact Except.noConfusion h
                    | ok room_candidates =>
                        simp only [hjoin] at h
                        by_cases hlt :
                          room_candidates.length < slots.num_options
                        · rw [if_pos hlt] at h
                          injection h with h2
                          injection h2 with h3 h4
                          subst h3
                          subst h4
                          exact ⟨⟨fun _ => hlt, fun _ => rfl⟩,
                            fun r hr => Option.noConfusion hr⟩
                        · rw [if_neg hlt] at h
                          injection h with h2
                          injection h2 with h3 h4
                          subst h3
                          subst h4
                          refine ⟨⟨fun hco => Option.noConfusion hco,
                            fun hk => absurd hk hlt⟩, ?_⟩
                          intro r hr
                          injection hr with hr2
                          subst hr2
                          show ((sort_candidates_level3 room_candidates
                            (get_sort_spec inst)).take
                              slots.num_options).length = slots.num_options
                          unfold sort_candidates_level3
                          rw [List.length_take,
                            (List.perm_insertionSort _
                              room_candidates).length_eq]
                          exact min_eq_left (Nat.le_of_not_lt hlt)

/-- C2 (witness): concrete runs of both pipelines that emit results of
exactly `num_options` candidates. -/
theorem c2_no_partial_results_witness :
    ([((540 : Int), (570 : Int)), (555, 585)]).length = 2 ∧
    ([(⟨540, 570, "room_a"⟩ : Cand3), ⟨555, 585, "room_a"⟩,
      ⟨570, 600, "room_a"⟩]).length = 3 :=
  ⟨((c2_no_partial_results.1
      ⟨⟨540⟩, fun _ => none,
        (fun p => if p = "p" then some [] else none), none, none, none, none⟩
      ⟨"i1", ⟨["a"], (540, 600), 30, 2, some "p"⟩, none⟩
      (some ⟨"i1", [(540, 570), (555, 585)],
        [("calendar_json", "a"), ("policy_json", "p"),
          ("slots", "time_window")], 3, 3, 2⟩)
      ⟨3, 3, 2, false⟩ rfl).2
      ⟨"i1", [(540, 570), (555, 585)],
        [("calendar_json", "a"), ("policy_json", "p"),
          ("slots", "time_window")], 3, 3, 2⟩ rfl),
    ((c2_no_partial_results.2
      ⟨⟨540⟩, fun _ => none, fun _ => none,
        some (fun p => if p = "p" then some [] else none), some [],
        some [⟨"room_a", 5⟩], some (fun _ => none)⟩
      ⟨"i3", ⟨["person_a"], (540, 600), 30, 7, some "p"⟩, none⟩
      (some ⟨"i3",
        [⟨540, 570, "room_a"⟩, ⟨555, 585, "room_a"⟩, ⟨570, 600, "room_a"⟩],
        [("calendar_json", "person_a"), ("policy_tags", "p"),
          ("people_table", "people_table"), ("rooms_table", "rooms_table"),
          ("room_availability_json", "room_availability_json"),
          ("slots", "time_window")], 3, 3, 3, 3⟩)
      ⟨3, 3, 3, 3, false⟩ rfl).2
      ⟨"i3",
        [⟨540, 570, "room_a"⟩, ⟨555, 585, "room_a"⟩, ⟨570, 600, "room_a"⟩],
        [("calendar_json", "person_a"), ("policy_tags", "p"),
          ("people_table", "people_table"), ("rooms_table", "rooms_table"),
          ("room_availability_json", "room_availability_json"),
          ("slots", "time_window")], 3, 3, 3, 3⟩ rfl)⟩

end MPCBench
